import Mathlib

/-!
Verification of the Photomatic photo index & transform cache engine.

Shallow embedding of `src/app/cache_manager.py`, `src/app/image_utils.py`
and the `/random` route of `src/app/routes.py`.  Filesystem contents,
image decoding (Pillow) and the EXIF/mtime date sources are modelled as
explicit values and oracle functions passed to the embedded operations;
machine-level hashing (`hashlib.md5`) is implemented bit-faithfully over
`Nat` with explicit reduction modulo 2^32.
-/

set_option maxRecDepth 4000

namespace Photomatic

/-! ### Basic string helpers (modelling `str.lower`, `in`, `endswith`,
`os.path.basename`, `str.strip`, `str.replace`) -/

/-- Model of `str.lower()` restricted to ASCII (filenames/paths). -/
def lowerStr (s : String) : String := ⟨s.data.map Char.toLower⟩

/-- Does the list begin with the given pattern of characters? -/
def listBeginsWith : List Char → List Char → Bool
  | _, [] => true
  | [], _ :: _ => false
  | c :: s, p :: ps => c == p && listBeginsWith s ps

/-- Model of Python's substring test `pat in s`. -/
def containsSub (s pat : String) : Bool :=
  go s.data pat.data
where
  go : List Char → List Char → Bool
    | [], pat => listBeginsWith [] pat
    | s@(_ :: rest), pat => listBeginsWith s pat || go rest pat

/-- Model of `str.endswith(suffix)`. -/
def endsWithStr (s suffix : String) : Bool :=
  listBeginsWith s.data.reverse suffix.data.reverse

/-- Model of `os.path.basename` on POSIX: the part after the last slash. -/
def basenameStr (p : String) : String :=
  ⟨(p.data.reverse.takeWhile (fun c => c ≠ '/')).reverse⟩

/-- Characters treated as whitespace by Python's `str.strip()` (ASCII). -/
def pyIsSpace (c : Char) : Bool :=
  c == ' ' || c == '\t' || c == '\n' || c == '\r' || c == '\x0b' || c == '\x0c'

/-- Model of `str.strip()`. -/
def pyStrip (s : String) : String :=
  ⟨((s.data.dropWhile pyIsSpace).reverse.dropWhile pyIsSpace).reverse⟩

/-- The character pattern removed by `prune_cache`'s `.replace(".jpg", "")`. -/
def jpgPat : List Char := ['.', 'j', 'p', 'g']

/-- Model of Python's `s.replace(".jpg", "")`: scan left to right, remove
every non-overlapping occurrence of `".jpg"`. -/
def stripJpgGo : Nat → List Char → List Char
  | 0, l => l
  | _ + 1, [] => []
  | fuel + 1, c :: rest =>
    if listBeginsWith (c :: rest) jpgPat then stripJpgGo fuel (rest.drop 3)
    else c :: stripJpgGo fuel rest

/-- Model of Python's `s.replace(".jpg", "")` (the fuel `l.length` always
suffices: each scan step consumes at least one character). -/
def stripJpgAll (l : List Char) : List Char := stripJpgGo l.length l

/-! ### UTF-8 encoding (modelling `str.encode()`) -/

/-- UTF-8 encoding of a single code point, as byte values. -/
def utf8EncodeChar (c : Char) : List Nat :=
  let n := c.toNat
  if n < 128 then [n]
  else if n < 2048 then [192 + n / 64, 128 + n % 64]
  else if n < 65536 then [224 + n / 4096, 128 + (n / 64) % 64, 128 + n % 64]
  else [240 + n / 262144, 128 + (n / 4096) % 64, 128 + (n / 64) % 64, 128 + n % 64]

/-- Model of Python `str.encode()` (UTF-8 bytes of the string). -/
def utf8Encode (s : String) : List Nat :=
  s.data.foldr (fun c acc => utf8EncodeChar c ++ acc) []

/-! ### MD5 (modelling `hashlib.md5(...).hexdigest()`), RFC 1321 over `Nat`
with explicit reduction modulo 2^32 -/

/-- Truncate to a 32-bit word. -/
def u32 (n : Nat) : Nat := n % 4294967296

/-- 32-bit left rotation. -/
def rotl32 (x s : Nat) : Nat := u32 ((x <<< s) ||| (x >>> (32 - s)))

/-- MD5 sine-derived constant table `K`. -/
def kTab : List Nat :=
  [3614090360, 3905402710, 606105819, 3250441966, 4118548399, 1200080426,
   2821735955, 4249261313, 1770035416, 2336552879, 4294925233, 2304563134,
   1804603682, 4254626195, 2792965006, 1236535329, 4129170786, 3225465664,
   643717713, 3921069994, 3593408605, 38016083, 3634488961, 3889429448,
   568446438, 3275163606, 4107603335, 1163531501, 2850285829, 4243563512,
   1735328473, 2368359562, 4294588738, 2272392833, 1839030562, 4259657740,
   2763975236, 1272893353, 4139469664, 3200236656, 681279174, 3936430074,
   3572445317, 76029189, 3654602809, 3873151461, 530742520, 3299628645,
   4096336452, 1126891415, 2878612391, 4237533241, 1700485571, 2399980690,
   4293915773, 2240044497, 1873313359, 4264355552, 2734768916, 1309151649,
   4149444226, 3174756917, 718787259, 3951481745]

/-- MD5 per-round left-rotation amounts `s`. -/
def sTab : List Nat :=
  [7, 12, 17, 22, 7, 12, 17, 22, 7, 12, 17, 22, 7, 12, 17, 22,
   5, 9, 14, 20, 5, 9, 14, 20, 5, 9, 14, 20, 5, 9, 14, 20,
   4, 11, 16, 23, 4, 11, 16, 23, 4, 11, 16, 23, 4, 11, 16, 23,
   6, 10, 15, 21, 6, 10, 15, 21, 6, 10, 15, 21, 6, 10, 15, 21]

/-- Little-endian byte rendering of a number, `k` bytes wide. -/
def leBytes : Nat → Nat → List Nat
  | 0, _ => []
  | k + 1, n => n % 256 :: leBytes k (n / 256)

/-- MD5 padding: append `0x80`, zero bytes to 56 mod 64, then the 64-bit
little-endian bit length. -/
def md5Pad (msg : List Nat) : List Nat :=
  let z := (64 + 56 - ((msg.length + 1) % 64)) % 64
  msg ++ [128] ++ List.replicate z 0 ++ leBytes 8 ((msg.length * 8) % 18446744073709551616)

/-- Group 4 consecutive bytes into little-endian 32-bit words. -/
def toWords : List Nat → List Nat
  | b0 :: b1 :: b2 :: b3 :: rest =>
      (b0 + 256 * b1 + 65536 * b2 + 16777216 * b3) :: toWords rest
  | _ => []

/-- Split a byte list into 64-byte chunks (fuel-based structural recursion;
the fuel `l.length` always suffices since each chunk consumes at least one
byte). -/
def chunks64Go : Nat → List Nat → List (List Nat)
  | 0, _ => []
  | _ + 1, [] => []
  | fuel + 1, l@(_ :: _) => l.take 64 :: chunks64Go fuel (l.drop 64)

/-- Split a byte list into 64-byte chunks. -/
def chunks64 (l : List Nat) : List (List Nat) := chunks64Go l.length l

/-- One step `i` of the MD5 compression function. -/
def md5Step (M : List Nat) (st : Nat × Nat × Nat × Nat) (i : Nat) :
    Nat × Nat × Nat × Nat :=
  let (a, b, c, d) := st
  let f :=
    if i < 16 then (b &&& c) ||| ((b ^^^ 4294967295) &&& d)
    else if i < 32 then (d &&& b) ||| ((d ^^^ 4294967295) &&& c)
    else if i < 48 then b ^^^ c ^^^ d
    else c ^^^ (b ||| (d ^^^ 4294967295))
  let g :=
    if i < 16 then i
    else if i < 32 then (5 * i + 1) % 16
    else if i < 48 then (3 * i + 5) % 16
    else (7 * i) % 16
  let tmp := u32 (f + a + kTab.getD i 0 + M.getD g 0)
  (d, u32 (b + rotl32 tmp (sTab.getD i 0)), b, c)

/-- Process one 64-byte block, updating the running state. -/
def md5Block (st : Nat × Nat × Nat × Nat) (block : List Nat) :
    Nat × Nat × Nat × Nat :=
  let M := toWords block
  let (a, b, c, d) := (List.range 64).foldl (md5Step M) st
  let (a0, b0, c0, d0) := st
  (u32 (a0 + a), u32 (b0 + b), u32 (c0 + c), u32 (d0 + d))

/-- MD5 digest of a byte list: the 16 output bytes. -/
def md5Bytes (msg : List Nat) : List Nat :=
  let s :=
    (chunks64 (md5Pad msg)).foldl md5Block
      (1732584193, 4023233417, 2562383102, 271733878)
  leBytes 4 s.1 ++ leBytes 4 s.2.1 ++ leBytes 4 s.2.2.1 ++ leBytes 4 s.2.2.2

/-- Lower-case hexadecimal digit for a nibble. -/
def hexDigit : Nat → Char
  | 0 => '0'
  | 1 => '1'
  | 2 => '2'
  | 3 => '3'
  | 4 => '4'
  | 5 => '5'
  | 6 => '6'
  | 7 => '7'
  | 8 => '8'
  | 9 => '9'
  | 10 => 'a'
  | 11 => 'b'
  | 12 => 'c'
  | 13 => 'd'
  | 14 => 'e'
  | _ + 15 => 'f'

/-- Hex rendering of a byte list (two lower-case digits per byte). -/
def hexOfBytes (bs : List Nat) : List Char :=
  bs.foldr (fun b acc => hexDigit (b / 16) :: hexDigit (b % 16) :: acc) []

/-- Model of `hashlib.md5(bs).hexdigest()`. -/
def md5Hex (bs : List Nat) : String := ⟨hexOfBytes (md5Bytes bs)⟩

/-! ### Calendar dates and the Date Resolver
(`cache_manager.parse_date_from_filename`, `cache_manager.get_photo_date`) -/

/-- A calendar date, as produced by Python's `datetime.date`. -/
structure Date where
  year : Nat
  month : Nat
  day : Nat
deriving DecidableEq, Repr

/-- Gregorian leap-year rule (as used by `datetime.date`). -/
def isLeap (y : Nat) : Bool := y % 4 == 0 && (y % 100 != 0 || y % 400 == 0)

/-- Days in a month (as used by `datetime.date`). -/
def daysInMonth (y m : Nat) : Nat :=
  if m == 2 then (if isLeap y then 29 else 28)
  else if m == 4 || m == 6 || m == 9 || m == 11 then 30
  else 31

/-- Whether `datetime.date(y, m, d)` succeeds rather than raising
`ValueError` (`datetime.MINYEAR = 1`, `datetime.MAXYEAR = 9999`). -/
def validDate (y m d : Nat) : Bool :=
  1 ≤ y && y ≤ 9999 && 1 ≤ m && m ≤ 12 && 1 ≤ d && d ≤ daysInMonth y m

/-- Do the first 8 characters of the list form 8 digits?  If so return the
captured `(YYYY, MM, DD)` numbers, mirroring the groups of the regex
`(\d{4})(\d{2})(\d{2})` anchored at this position. -/
def digits8At : List Char → Option (Nat × Nat × Nat)
  | a :: b :: c :: d :: e :: f :: g :: h :: _ =>
    if (a.isDigit && b.isDigit && c.isDigit && d.isDigit &&
        e.isDigit && f.isDigit && g.isDigit && h.isDigit) then
      some (1000 * (a.toNat - 48) + 100 * (b.toNat - 48) + 10 * (c.toNat - 48)
              + (d.toNat - 48),
            10 * (e.toNat - 48) + (f.toNat - 48),
            10 * (g.toNat - 48) + (h.toNat - 48))
    else none
  | _ => none

/-- Leftmost match of `re.search(r"(\d{4})(\d{2})(\d{2})", s)`. -/
def findMatch8 : List Char → Option (Nat × Nat × Nat)
  | [] => none
  | c :: rest =>
    match digits8At (c :: rest) with
    | some r => some r
    | none => findMatch8 rest

/-- Does this position match `(\d{4})-(\d{2})-(\d{2})`?  If so return the
captured numbers. -/
def hyphenAt : List Char → Option (Nat × Nat × Nat)
  | a :: b :: c :: d :: h1 :: e :: f :: h2 :: g :: h :: _ =>
    if (a.isDigit && b.isDigit && c.isDigit && d.isDigit && h1 == '-' &&
        e.isDigit && f.isDigit && h2 == '-' && g.isDigit && h.isDigit) then
      some (1000 * (a.toNat - 48) + 100 * (b.toNat - 48) + 10 * (c.toNat - 48)
              + (d.toNat - 48),
            10 * (e.toNat - 48) + (f.toNat - 48),
            10 * (g.toNat - 48) + (h.toNat - 48))
    else none
  | _ => none

/-- Leftmost match of `re.search(r"(\d{4})-(\d{2})-(\d{2})", s)`. -/
def findHyphen : List Char → Option (Nat × Nat × Nat)
  | [] => none
  | c :: rest =>
    match hyphenAt (c :: rest) with
    | some r => some r
    | none => findHyphen rest

/-- The second tier of `parse_date_from_filename`: the hyphenated
`YYYY-MM-DD` pattern, with the `datetime.date` validity check. -/
def hyphenTier (filename : String) : Option Date :=
  match findHyphen filename.data with
  | some (y, m, d) => if validDate y m d then some ⟨y, m, d⟩ else none
  | none => none

/-- `cache_manager.parse_date_from_filename`: try the `YYYYMMDD` pattern; if
its captured digits are not a valid calendar date (`ValueError`), fall
through to the `YYYY-MM-DD` pattern; else `None`. -/
def parse_date_from_filename (filename : String) : Option Date :=
  match findMatch8 filename.data with
  | some (y, m, d) => if validDate y m d then some ⟨y, m, d⟩ else hyphenTier filename
  | none => hyphenTier filename

/-- Oracles for the date sources that live outside the program text:
`exifDate path` is the date of the first EXIF field among
`DateTimeOriginal`/`DateTimeDigitized`/`DateTime` that parses (none when
the image cannot be opened, has no EXIF, or no field parses);
`mtimeDate path` is the filesystem-mtime date (none when `os.path.getmtime`
raises `OSError`). -/
structure DateEnv where
  exifDate : String → Option Date
  mtimeDate : String → Option Date

/-- The EXIF-then-mtime fallback chain of `get_photo_date` (everything after
the filename tier). -/
def metadataChain (env : DateEnv) (path : String) : Option Date :=
  match env.exifDate path with
  | some d => some d
  | none => env.mtimeDate path

/-- `cache_manager.get_photo_date`: date parsed from the basename of the
path, else EXIF, else mtime, else `None`. -/
def get_photo_date (env : DateEnv) (path : String) : Option Date :=
  match parse_date_from_filename (basenameStr path) with
  | some d => some d
  | none => metadataChain env path

/-- Zero-padded decimal rendering, for `str(datetime.date(...))`. -/
def padNum (width n : Nat) : String :=
  let s := toString n
  ⟨List.replicate (width - s.length) '0' ++ s.data⟩

/-- Model of Python `str(today)`: ISO `YYYY-MM-DD`. -/
def dateStr (d : Date) : String :=
  padNum 4 d.year ++ "-" ++ padNum 2 d.month ++ "-" ++ padNum 2 d.day

/-- English month abbreviations used by `strftime("%b")`. -/
def monthAbbrev (m : Nat) : String :=
  List.getD ["Jan", "Feb", "Mar", "Apr", "May", "Jun", "Jul", "Aug", "Sep",
             "Oct", "Nov", "Dec"] (m - 1) ""

/-- `cache_manager.format_date_with_suffix`: `1st Jan 2020` style. -/
def format_date_with_suffix (dt : Date) : String :=
  let day := dt.day
  let suffix :=
    if 11 ≤ day && day ≤ 13 then "th"
    else if day % 10 == 1 then "st"
    else if day % 10 == 2 then "nd"
    else if day % 10 == 3 then "rd"
    else "th"
  toString day ++ suffix ++ " " ++ monthAbbrev dt.month ++ " " ++ toString dt.year

/-! ### Process-wide state (module `globals` as `G`), the derived-image
store (`instance/cache/photos/`), and the Flask session -/

/-- One derived-image file in `G.CACHE_DIR_PHOTO`: its filename (relative
to the photo cache directory), its JPEG bytes, and its mtime. -/
structure CEntry where
  name : String
  bytes : List Nat
  mtime : Nat
deriving DecidableEq, Repr

/-- Process-wide mutable state: the `G.*` globals together with the
persisted artifacts they describe.  `allLines`/`sameLines` are the line
contents of `cache_all.txt`/`cache_same_day.txt` (`none` = file missing);
`photoDir` is the listing of `G.CACHE_DIR_PHOTO`; `now` is the wall clock
stamped as mtime on new cache writes; `removeFails name` says whether
`os.remove` on that entry raises `OSError`. -/
structure GState where
  cacheDate : Option Date
  buildingCache : Bool
  sameDayKeys : List String
  cacheCount : Int
  cacheLimit : Int
  sameDayCycle : Nat
  photoDir : List CEntry
  allLines : Option (List String)
  sameLines : Option (List String)
  now : Nat
  removeFails : String → Bool

/-- Per-session cookie state: `session["photo_date"]`,
`session["photo_index"]`, `session["photo_served"]` (absent keys modelled
by their defaults: `photo_date` absent = `none`, the counters default 0). -/
structure Sess where
  photoDate : Option String
  photoIndex : Nat
  photoServed : Nat
deriving DecidableEq, Repr

/-! ### Eviction Manager (`cache_manager.prune_cache`) -/

/-- The cache key recovered from an entry filename:
`os.path.basename(f).replace(".jpg", "")` (for entries of
`G.CACHE_DIR_PHOTO`, `os.path.basename` yields the entry's filename). -/
def keyOfName (name : String) : String := ⟨stripJpgAll name.data⟩

/-- Lexicographic order on `(mtime, name)` pairs: the order in which
`heapq` pops the `(mtime, f)` tuples pushed by `prune_cache`. -/
def heapLE (a b : Nat × String) : Prop :=
  a.1 < b.1 ∨ (a.1 = b.1 ∧ a.2 ≤ b.2)

instance : DecidableRel heapLE := fun a b => by
  unfold heapLE; infer_instance

instance : IsTotal (Nat × String) heapLE := by
  constructor
  intro a b
  unfold heapLE
  rcases Nat.lt_trichotomy a.1 b.1 with h | h | h
  · exact Or.inl (Or.inl h)
  · cases le_total a.2 b.2 with
    | inl hs => exact Or.inl (Or.inr ⟨h, hs⟩)
    | inr hs => exact Or.inr (Or.inr ⟨h.symm, hs⟩)
  · exact Or.inr (Or.inl h)

instance : IsTrans (Nat × String) heapLE := by
  constructor
  intro a b c hab hbc
  unfold heapLE at *
  rcases hab with h1 | ⟨e1, s1⟩
  · rcases hbc with h2 | ⟨e2, _⟩
    · exact Or.inl (h1.trans h2)
    · exact Or.inl (e2 ▸ h1)
  · rcases hbc with h2 | ⟨e2, s2⟩
    · exact Or.inl (e1 ▸ h2)
    · exact Or.inr ⟨e1.trans e2, s1.trans s2⟩

/-- The `(mtime, f)` pairs pushed onto the heap: every listing entry except
dotfiles (all modelled entries are regular files, so the
`os.path.isfile` filter keeps them all). -/
def heapInput (dir : List CEntry) : List (Nat × String) :=
  (dir.filter (fun e => ! listBeginsWith e.name.data ['.'])).map
    (fun e => (e.mtime, e.name))

/-- The eviction loop of `prune_cache`: pop entries in heap order while the
count exceeds the limit; skip protected keys; on successful removal
decrement the counter, on `OSError` log and skip without decrementing.
Returns the new count and the list of removed `(mtime, name)` pairs in
removal order. -/
def pruneLoop (limit : Int) (keys : List String) (removeFails : String → Bool) :
    Int → List (Nat × String) → Int × List (Nat × String)
  | count, [] => (count, [])
  | count, (m, f) :: rest =>
    if count ≤ limit then (count, [])
    else if keyOfName f ∈ keys then pruneLoop limit keys removeFails count rest
    else if removeFails f then pruneLoop limit keys removeFails count rest
    else
      ((pruneLoop limit keys removeFails (count - 1) rest).1,
       (m, f) :: (pruneLoop limit keys removeFails (count - 1) rest).2)

/-- `cache_manager.prune_cache`: no-op when `G.CACHE_COUNT <= G.CACHE_LIMIT`;
otherwise build the mtime heap over the photo-cache listing and evict.
Returns the new `G.CACHE_COUNT` and the removed `(mtime, name)` pairs. -/
def prune_cache (count limit : Int) (keys : List String)
    (dir : List CEntry) (removeFails : String → Bool) :
    Int × List (Nat × String) :=
  if count ≤ limit then (count, [])
  else pruneLoop limit keys removeFails count (List.insertionSort heapLE (heapInput dir))

/-- Apply `prune_cache` to the process state: update the counter and delete
the removed entries from the photo-cache directory. -/
def applyPrune (st : GState) : GState :=
  let pr :=
    prune_cache st.cacheCount st.cacheLimit st.sameDayKeys st.photoDir st.removeFails
  { st with
    cacheCount := pr.1
    photoDir := st.photoDir.filter (fun e => ! pr.2.any (fun r => r.2 == e.name)) }

/-! ### Transform Cache (`image_utils.resize_and_compress`) -/

/-- Overlay text by corner position, the dict passed as `overlays`. -/
def Overlays := List (String × String)

/-- Lookup of a filename in the photo-cache directory
(`os.path.exists(cache_file)` + reading it). -/
def lookupEntry (name : String) (dir : List CEntry) : Option CEntry :=
  dir.find? (fun e => e.name == name)

/-- The cache filename used by `resize_and_compress` for a source path:
`md5(path.encode()).hexdigest() + ".jpg"`. -/
def cacheFileName (path : String) : String := md5Hex (utf8Encode path) ++ ".jpg"

/-- Result of `resize_and_compress`: the returned buffer bytes, the updated
process state, and whether the miss path ran (decode + resize + overlay +
encode work). -/
structure RzResult where
  buf : List Nat
  st : GState
  didWork : Bool

/-- `image_utils.resize_and_compress`: on a cache hit return the stored
bytes unchanged; on a miss run the image pipeline (modelled by the
deterministic oracle `encode`, covering `Image.open`, `exif_transpose`,
`thumbnail`, `apply_overlays` and the JPEG save), persist the bytes under
the key, bump the counter and the clock, then invoke `prune_cache`. -/
def resize_and_compress (st : GState) (path : String) (overlays : Overlays)
    (quality : Nat) (encode : String → Overlays → Nat → List Nat) : RzResult :=
  let cacheFile := cacheFileName path
  match lookupEntry cacheFile st.photoDir with
  | some e => ⟨e.bytes, st, false⟩
  | none =>
    let buf := encode path overlays quality
    let st1 := { st with
      photoDir := st.photoDir ++ [⟨cacheFile, buf, st.now⟩]
      cacheCount := st.cacheCount + 1
      now := st.now + 1 }
    ⟨buf, applyPrune st1, true⟩

/-! ### Index Builder (`cache_manager.build_cache`) -/

/-- Supported photo extensions (matched on the lower-cased filename). -/
def extensionsList : List String := [".jpg", ".jpeg", ".png", ".gif", ".webp", ".heic"]

/-- `fn.lower().endswith(extensions)`. -/
def supportedExt (fn : String) : Bool :=
  extensionsList.any (fun e => endsWithStr (lowerStr fn) e)

/-- Ignored directory-name substrings. -/
def ignoreDirs : List String := ["thumbnails", "cache", ".git", "__pycache__", "@__thumb"]

/-- `any(ign in root.lower() for ign in ignore_dirs)`. -/
def ignoredRoot (root : String) : Bool :=
  ignoreDirs.any (fun d => containsSub (lowerStr root) d)

/-- `os.path.join(root, fn)` (POSIX, `root` not ending in a slash and `fn`
relative, which is how `os.walk` yields them). -/
def joinPath (root fn : String) : String := root ++ "/" ++ fn

/-- Accumulated output of the scan loop of `build_cache`: the lines of
`cache_all.txt` and `cache_same_day.txt` and the `G.SAME_DAY_KEYS` list,
each in append order. -/
structure ScanOut where
  allL : List String
  sameL : List String
  keys : List String
deriving DecidableEq, Repr

/-- Does the resolved photo date fall on today's month and day?  Mirrors
`photo_date and photo_date.month == today.month and photo_date.day ==
today.day` (a `datetime.date` is always truthy, so `None` is the only
falsy case). -/
def sameDayAs (today : Date) : Option Date → Bool
  | some d => d.month == today.month && d.day == today.day
  | none => false

/-- The inner file loop of the scan for one walk root. -/
def scanRootFiles (today : Date) (env : DateEnv) (root : String) :
    List String → ScanOut
  | [] => ⟨[], [], []⟩
  | fn :: fns =>
    let rest := scanRootFiles today env root fns
    if supportedExt fn then
      let path := joinPath root fn
      if sameDayAs today (get_photo_date env path) then
        ⟨rest.allL, path :: rest.sameL, md5Hex (utf8Encode path) :: rest.keys⟩
      else
        ⟨path :: rest.allL, rest.sameL, rest.keys⟩
    else rest

/-- The `os.walk` loop of `build_cache`: skip ignored roots, classify each
supported file.  The walk is modelled as the list of `(root, files)`
pairs `os.walk(base_dir)` yields, in order; sequential appends to the two
open files concatenate per-root outputs in walk order. -/
def scanFiles (today : Date) (env : DateEnv) :
    List (String × List String) → ScanOut
  | [] => ⟨[], [], []⟩
  | (root, files) :: rest =>
    let tail := scanFiles today env rest
    if ignoredRoot root then tail
    else
      let head := scanRootFiles today env root files
      ⟨head.allL ++ tail.allL, head.sameL ++ tail.sameL, head.keys ++ tail.keys⟩

/-- The state `build_cache` establishes before the scan starts:
`G.CACHE_DATE = None`, `G.BUILDING_CACHE = True`, `G.SAME_DAY_KEYS = []`,
and both cache files truncated by `open(..., "w")`. -/
def preBuild (st : GState) : GState :=
  { st with
    cacheDate := none
    buildingCache := true
    sameDayKeys := []
    allLines := some []
    sameLines := some [] }

/-- `cache_manager.build_cache`, given the outcome of the scan: on success
(`Except.ok`) the full scan output is written and `G.CACHE_DATE := today`;
if the scan raises partway through (`Except.error`, carrying whatever
partial output had been written), `G.CACHE_DATE` stays `None`.  Either
way the `finally` block clears `G.BUILDING_CACHE`. -/
def buildCacheResult (st : GState) (today : Date) (outcome : Except ScanOut ScanOut) :
    GState :=
  let st1 := preBuild st
  match outcome with
  | Except.ok out =>
    { st1 with
      allLines := some out.allL
      sameLines := some out.sameL
      sameDayKeys := out.keys
      cacheDate := some today
      buildingCache := false }
  | Except.error out =>
    { st1 with
      allLines := some out.allL
      sameLines := some out.sameL
      sameDayKeys := out.keys
      buildingCache := false }

/-- A `build_cache` run whose scan completes without raising. -/
def buildCacheOk (st : GState) (today : Date) (env : DateEnv)
    (walk : List (String × List String)) : GState :=
  buildCacheResult st today (Except.ok (scanFiles today env walk))

/-- The photo paths the scan enumerates and classifies: supported-extension
files under non-ignored walk roots, in walk order. -/
def eligiblePaths : List (String × List String) → List String
  | [] => []
  | (root, files) :: rest =>
    if ignoredRoot root then eligiblePaths rest
    else ((files.filter supportedExt).map (joinPath root)) ++ eligiblePaths rest

/-! ### Selection Engine (`cache_manager.get_line`, `count_lines`,
`pick_file`) and the `/random` route (`routes.random_image`) -/

/-- `cache_manager.get_line`: the 0-based `idx` line of the file, stripped;
`None` when the file is missing or the index is past the end. -/
def get_line (file : Option (List String)) (idx : Nat) : Option String :=
  match file with
  | none => none
  | some lines => (lines.get? idx).map pyStrip

/-- `cache_manager.count_lines`: number of lines, 0 when the file is missing. -/
def count_lines (file : Option (List String)) : Nat :=
  match file with
  | none => 0
  | some lines => lines.length

/-- Python truthiness of `get_line`'s result (`None` and `""` are falsy). -/
def truthy : Option String → Bool
  | none => false
  | some s => s ≠ ""

/-- Result of one `pick_file` call: the returned path (or `None`), the
updated session and process state, and how many times `build_cache` ran
during the call. -/
structure PickOut where
  path : Option String
  sess : Sess
  st : GState
  rebuilds : Nat

/-- `cache_manager.pick_file`: rebuild when the index is stale
(`G.CACHE_DATE != today`) or `cache_all.txt` is missing; reset the session
cursor when its `photo_date` is not today's `str(today)`; serve the next
same-day line when present (advancing `photo_index`), else a random line
of `cache_all.txt` at the oracle-drawn index `rand total`, else `None`.
The rebuild's scan is modelled as completing successfully (an exception
would propagate out of `pick_file`). -/
def pick_file (st : GState) (sess : Sess) (today : Date) (env : DateEnv)
    (walk : List (String × List String)) (rand : Nat → Nat) : PickOut :=
  let (st, rebuilds) :=
    if st.cacheDate ≠ some today ∨ st.allLines = none then
      (buildCacheOk st today env walk, 1)
    else (st, 0)
  let sess :=
    if sess.photoDate ≠ some (dateStr today) then
      { sess with photoDate := some (dateStr today), photoIndex := 0 }
    else sess
  let idx := sess.photoIndex
  let line := get_line st.sameLines idx
  if truthy line then
    ⟨line, { sess with photoIndex := idx + 1 }, st, rebuilds⟩
  else
    let total := count_lines st.allLines
    if 0 < total then ⟨get_line st.allLines (rand total), sess, st, rebuilds⟩
    else ⟨none, sess, st, rebuilds⟩

/-- Result of one `/random` request: the served path (`none` for the 503 /
404 early returns), the HTTP status, and the updated session and state. -/
structure RouteOut where
  resp : Option String
  status : Nat
  sess : Sess
  st : GState

/-- The overlays dict built by `routes.random_image` for a picked path. -/
def routeOverlays (env : DateEnv) (path : String) : Overlays :=
  [("top_left",
    match get_photo_date env path with
    | some d => format_date_with_suffix d
    | none => ""),
   ("top_right", basenameStr path)]

/-- `routes.random_image` (the `/random` handler): 503 while a build is in
progress; `pick_file`; 404 when it returns a falsy path; otherwise
`resize_and_compress` with the overlay dict and quality 50, then the
session bookkeeping — increment `photo_served` and, when it exceeds
`G.SAME_DAY_CYCLE`, reset `photo_index` and `photo_served` to 0. -/
def random_image (st : GState) (sess : Sess) (today : Date) (env : DateEnv)
    (walk : List (String × List String)) (rand : Nat → Nat)
    (encode : String → Overlays → Nat → List Nat) : RouteOut :=
  if st.buildingCache then ⟨none, 503, sess, st⟩
  else
    let r := pick_file st sess today env walk rand
    match r.path with
    | none => ⟨none, 404, r.sess, r.st⟩
    | some p =>
      if p = "" then ⟨none, 404, r.sess, r.st⟩
      else
        let rz := resize_and_compress r.st p (routeOverlays env p) 50 encode
        let served := r.sess.photoServed + 1
        let sess2 :=
          if rz.st.sameDayCycle < served then
            { r.sess with photoIndex := 0, photoServed := 0 }
          else { r.sess with photoServed := served }
        ⟨some p, 200, sess2, rz.st⟩

/-! ### Key-structure lemmas: the MD5 hex digest is 32 hex characters, so
`prune_cache`'s `.replace(".jpg", "")` recovers exactly the key from a
derived-image filename -/

/-- Sanity check against the RFC 1321 test suite: MD5 of the empty message. -/
theorem md5Hex_rfc_empty : md5Hex [] = "d41d8cd98f00b204e9800998ecf8427e" := by
  decide

/-- Sanity check against the RFC 1321 test suite: MD5 of "abc". -/
theorem md5Hex_rfc_abc :
    md5Hex (utf8Encode "abc") = "900150983cd24fb0d6963f7d28e17f72" := by
  decide


theorem leBytes_length (k n : Nat) : (leBytes k n).length = k := by
  induction k generalizing n with
  | zero => rfl
  | succ k ih => simp [leBytes, ih]

theorem md5Bytes_length (bs : List Nat) : (md5Bytes bs).length = 16 := by
  unfold md5Bytes
  simp [leBytes_length]

theorem hexOfBytes_cons (b : Nat) (bs : List Nat) :
    hexOfBytes (b :: bs) = hexDigit (b / 16) :: hexDigit (b % 16) :: hexOfBytes bs :=
  rfl

theorem hexOfBytes_length (bs : List Nat) :
    (hexOfBytes bs).length = 2 * bs.length := by
  induction bs with
  | nil => rfl
  | cons b bs ih => rw [hexOfBytes_cons]; simp [ih]; omega

theorem md5Hex_length (bs : List Nat) : (md5Hex bs).length = 32 := by
  show (hexOfBytes (md5Bytes bs)).length = 32
  rw [hexOfBytes_length, md5Bytes_length]

theorem hexDigit_ne_dot : ∀ n : Nat, hexDigit n ≠ '.'
  | 0 => by decide
  | 1 => by decide
  | 2 => by decide
  | 3 => by decide
  | 4 => by decide
  | 5 => by decide
  | 6 => by decide
  | 7 => by decide
  | 8 => by decide
  | 9 => by decide
  | 10 => by decide
  | 11 => by decide
  | 12 => by decide
  | 13 => by decide
  | 14 => by decide
  | _ + 15 => by show 'f' ≠ '.'; decide

theorem hexOfBytes_ne_dot (bs : List Nat) : ∀ c ∈ hexOfBytes bs, c ≠ '.' := by
  induction bs with
  | nil => intro c hc; simp [hexOfBytes] at hc
  | cons b bs ih =>
    intro c hc
    rw [hexOfBytes_cons] at hc
    rcases List.mem_cons.mp hc with h | hc
    · exact h ▸ hexDigit_ne_dot _
    · rcases List.mem_cons.mp hc with h | hc
      · exact h ▸ hexDigit_ne_dot _
      · exact ih c hc

theorem stripJpgGo_nil (fuel : Nat) : stripJpgGo fuel [] = [] := by
  cases fuel <;> rfl

theorem stripJpgGo_cons_ne (fuel : Nat) (c : Char) (l : List Char)
    (h : c ≠ '.') : stripJpgGo (fuel + 1) (c :: l) = c :: stripJpgGo fuel l := by
  have hc : (c == '.') = false := beq_eq_false_iff_ne.mpr h
  simp [stripJpgGo, listBeginsWith, jpgPat, hc]

theorem stripJpgAll_append_jpg (l : List Char) (h : ∀ c ∈ l, c ≠ '.') :
    stripJpgAll (l ++ jpgPat) = l := by
  have main : ∀ m : List Char, (∀ c ∈ m, c ≠ '.') →
      stripJpgGo (m.length + 4) (m ++ jpgPat) = m := by
    intro m
    induction m with
    | nil => intro _; decide
    | cons c rest ih =>
      intro hm
      have hc : c ≠ '.' := hm c (List.mem_cons_self c rest)
      have hlen : (c :: rest).length + 4 = (rest.length + 4) + 1 := by
        simp [List.length_cons]
      rw [hlen, List.cons_append, stripJpgGo_cons_ne _ _ _ hc,
        ih (fun x hx => hm x (List.mem_cons_of_mem _ hx))]
  have hlen : (l ++ jpgPat).length = l.length + 4 := by
    simp [jpgPat]
  unfold stripJpgAll
  rw [hlen, main l h]

theorem keyOfName_cacheFileName (path : String) :
    keyOfName (cacheFileName path) = md5Hex (utf8Encode path) := by
  have hne : ∀ c ∈ hexOfBytes (md5Bytes (utf8Encode path)), c ≠ '.' :=
    hexOfBytes_ne_dot _
  show String.mk (stripJpgAll (md5Hex (utf8Encode path) ++ ".jpg").data) = _
  have hdata : (md5Hex (utf8Encode path) ++ ".jpg").data
      = hexOfBytes (md5Bytes (utf8Encode path)) ++ jpgPat := by
    rw [String.data_append]; rfl
  rw [hdata, stripJpgAll_append_jpg _ hne]
  rfl

theorem scanRootFiles_keys (today : Date) (env : DateEnv) (root : String)
    (files : List String) :
    (scanRootFiles today env root files).keys =
      (scanRootFiles today env root files).sameL.map
        (fun p => md5Hex (utf8Encode p)) := by
  induction files with
  | nil => rfl
  | cons fn fns ih =>
    simp only [scanRootFiles]
    split
    · split
      · simp [ih]
      · simpa using ih
    · exact ih

theorem scanFiles_keys (today : Date) (env : DateEnv)
    (walk : List (String × List String)) :
    (scanFiles today env walk).keys =
      (scanFiles today env walk).sameL.map (fun p => md5Hex (utf8Encode p)) := by
  induction walk with
  | nil => rfl
  | cons rf rest ih =>
    obtain ⟨root, files⟩ := rf
    simp only [scanFiles]
    split
    · exact ih
    · simp [scanRootFiles_keys, ih]

/-- C10: the Index Builder (`build_cache`) and the Transform Cache
(`resize_and_compress`) compute the identical content-cache key — the MD5
hex digest of the path's UTF-8 bytes — the builder records exactly that
key for every same-day photo, the derived-image file is named
`<key>.jpg`, the digest is 32 (hex) characters, and `prune_cache`'s
`basename.replace(".jpg", "")` recovers exactly that key from the
derived-image filename, so protection is effective. -/
theorem claim_C10 (path : String) (today : Date) (env : DateEnv)
    (walk : List (String × List String)) :
    (scanFiles today env walk).keys =
      (scanFiles today env walk).sameL.map (fun p => md5Hex (utf8Encode p)) ∧
    cacheFileName path = md5Hex (utf8Encode path) ++ ".jpg" ∧
    (md5Hex (utf8Encode path)).length = 32 ∧
    keyOfName (cacheFileName path) = md5Hex (utf8Encode path) :=
  ⟨scanFiles_keys today env walk, rfl, md5Hex_length _, keyOfName_cacheFileName path⟩

/-- C2: if a derived-image cache entry exists for a source path, any two
calls to `resize_and_compress` with that path return the stored bytes
unchanged — regardless of the `overlays` and `quality` arguments, which a
hit never re-applies — and neither call performs pipeline work or changes
the state.  (The key is derived solely from the path.) -/
theorem claim_C2 (st : GState) (path : String) (ov1 ov2 : Overlays)
    (q1 q2 : Nat) (enc : String → Overlays → Nat → List Nat) (e : CEntry)
    (h : lookupEntry (cacheFileName path) st.photoDir = some e) :
    resize_and_compress st path ov1 q1 enc = ⟨e.bytes, st, false⟩ ∧
    resize_and_compress (resize_and_compress st path ov1 q1 enc).st path ov2 q2 enc
      = ⟨e.bytes, st, false⟩ := by
  have h1 : resize_and_compress st path ov1 q1 enc = ⟨e.bytes, st, false⟩ := by
    simp only [resize_and_compress, h]
  exact ⟨h1, by rw [h1]; simp only [resize_and_compress, h]⟩

/-- C2 witness: a concrete one-entry cache serving hits regardless of
overlay/quality arguments. -/
theorem claim_C2_witness :
    lookupEntry (cacheFileName "p")
        [⟨cacheFileName "p", [1, 2], 0⟩] = some ⟨cacheFileName "p", [1, 2], 0⟩ ∧
    resize_and_compress
        ⟨none, false, [], 1, 5, 2, [⟨cacheFileName "p", [1, 2], 0⟩], none, none, 3,
          fun _ => false⟩
        "p" [("top_left", "a")] 50 (fun _ _ _ => [9]) =
      ⟨[1, 2],
        ⟨none, false, [], 1, 5, 2, [⟨cacheFileName "p", [1, 2], 0⟩], none, none, 3,
          fun _ => false⟩, false⟩ := by
  have h : lookupEntry (cacheFileName "p")
      [⟨cacheFileName "p", [1, 2], 0⟩] = some ⟨cacheFileName "p", [1, 2], 0⟩ :=
    List.find?_cons_of_pos _ (beq_self_eq_true _)
  exact ⟨h,
    (claim_C2 ⟨none, false, [], 1, 5, 2, [⟨cacheFileName "p", [1, 2], 0⟩], none, none,
        3, fun _ => false⟩
      "p" [("top_left", "a")] [] 50 75 (fun _ _ _ => [9]) _ h).1⟩

/-! ### Eviction lemmas (claim C4) -/

theorem pruneLoop_sublist (limit : Int) (keys : List String) (rf : String → Bool) :
    ∀ (count : Int) (l : List (Nat × String)),
      (pruneLoop limit keys rf count l).2.Sublist l := by
  intro count l
  induction l generalizing count with
  | nil => simp [pruneLoop]
  | cons hd tl ih =>
    obtain ⟨m, f⟩ := hd
    simp only [pruneLoop]
    split
    · exact List.nil_sublist _
    · split
      · exact (ih count).cons _
      · split
        · exact (ih count).cons _
        · exact (ih (count - 1)).cons₂ _

theorem pruneLoop_count (limit : Int) (keys : List String) (rf : String → Bool) :
    ∀ (count : Int) (l : List (Nat × String)),
      (pruneLoop limit keys rf count l).1 =
        count - ((pruneLoop limit keys rf count l).2.length : Int) := by
  intro count l
  induction l generalizing count with
  | nil => simp [pruneLoop]
  | cons hd tl ih =>
    obtain ⟨m, f⟩ := hd
    simp only [pruneLoop]
    split
    · simp
    · split
      · exact ih count
      · split
        · exact ih count
        · have := ih (count - 1)
          simp only [List.length_cons]
          push_cast
          omega

theorem pruneLoop_mem (limit : Int) (keys : List String) (rf : String → Bool) :
    ∀ (count : Int) (l : List (Nat × String)),
      ∀ r ∈ (pruneLoop limit keys rf count l).2,
        keyOfName r.2 ∉ keys ∧ rf r.2 = false := by
  intro count l
  induction l generalizing count with
  | nil => simp [pruneLoop]
  | cons hd tl ih =>
    obtain ⟨m, f⟩ := hd
    simp only [pruneLoop]
    split
    · simp
    · split
      · exact ih count
      · split
        · exact ih count
        · rename_i hlim hkey hrf
          intro r hr
          rcases List.mem_cons.mp hr with h | h
          · subst h
            exact ⟨hkey, Bool.not_eq_true _ ▸ hrf⟩
          · exact ih (count - 1) r h

theorem pruneLoop_allProt (limit : Int) (keys : List String) (rf : String → Bool) :
    ∀ (count : Int) (l : List (Nat × String)),
      (∀ x ∈ l, keyOfName x.2 ∈ keys) →
        pruneLoop limit keys rf count l = (count, []) := by
  intro count l
  induction l generalizing count with
  | nil => intro _; rfl
  | cons hd tl ih =>
    obtain ⟨m, f⟩ := hd
    intro h
    simp only [pruneLoop]
    split
    · rfl
    · rw [if_pos (h (m, f) (List.mem_cons_self _ _))]
      exact ih count (fun x hx => h x (List.mem_cons_of_mem _ hx))

/-- C4: `prune_cache` is a no-op when the live count is at or below the
limit; otherwise it removes entries in ascending modification-time order,
never removes an entry whose key is protected, only counts successful
removals (a failed `os.remove` is skipped without decrementing), and when
every listed entry is protected it removes nothing — possibly leaving the
count above the limit. -/
theorem claim_C4 (count limit : Int) (keys : List String) (dir : List CEntry)
    (rf : String → Bool) :
    (count ≤ limit → prune_cache count limit keys dir rf = (count, [])) ∧
    ((prune_cache count limit keys dir rf).2.map Prod.fst).Sorted (· ≤ ·) ∧
    (∀ r ∈ (prune_cache count limit keys dir rf).2,
        keyOfName r.2 ∉ keys ∧ rf r.2 = false) ∧
    (prune_cache count limit keys dir rf).1 =
      count - ((prune_cache count limit keys dir rf).2.length : Int) ∧
    ((∀ x ∈ heapInput dir, keyOfName x.2 ∈ keys) →
        prune_cache count limit keys dir rf = (count, [])) := by
  refine ⟨?_, ?_, ?_, ?_, ?_⟩
  · intro h
    unfold prune_cache
    rw [if_pos h]
  · unfold prune_cache
    split
    · simp
    · have hs : (List.insertionSort heapLE (heapInput dir)).Pairwise heapLE :=
        List.sorted_insertionSort heapLE (heapInput dir)
      have hsub := pruneLoop_sublist limit keys rf count
        (List.insertionSort heapLE (heapInput dir))
      have h2 := List.Pairwise.sublist hsub hs
      exact List.pairwise_map.mpr (h2.imp (fun hab => by
        rcases hab with h | ⟨h, _⟩
        · exact le_of_lt h
        · exact le_of_eq h))
  · unfold prune_cache
    split
    · simp
    · exact pruneLoop_mem limit keys rf count _
  · unfold prune_cache
    split
    · simp
    · exact pruneLoop_count limit keys rf count _
  · intro h
    unfold prune_cache
    split
    · rfl
    · refine pruneLoop_allProt limit keys rf count _ (fun x hx => h x ?_)
      exact (List.perm_insertionSort heapLE (heapInput dir)).mem_iff.mp hx

/-- C4 witness: the no-op case at the limit, and the all-protected case
where the count stays above the limit. -/
theorem claim_C4_witness :
    ((1 : Int) ≤ 1 ∧ prune_cache 1 1 [] [] (fun _ => false) = (1, [])) ∧
    ((∀ x ∈ heapInput [⟨"a.jpg", [], 0⟩], keyOfName x.2 ∈ ["a"]) ∧
      prune_cache 9 1 ["a"] [⟨"a.jpg", [], 0⟩] (fun _ => false) = (9, [])) :=
  ⟨⟨le_refl 1, (claim_C4 1 1 [] [] (fun _ => false)).1 (le_refl 1)⟩,
   ⟨by decide,
    (claim_C4 9 1 ["a"] [⟨"a.jpg", [], 0⟩] (fun _ => false)).2.2.2.2 (by decide)⟩⟩

/-- `pick_file` rebuilds exactly when the index is stale or `cache_all.txt`
is missing. -/
theorem pick_file_rebuilds (st : GState) (sess : Sess) (today : Date)
    (env : DateEnv) (walk : List (String × List String)) (rand : Nat → Nat) :
    (pick_file st sess today env walk rand).rebuilds =
      if st.cacheDate ≠ some today ∨ st.allLines = none then 1 else 0 := by
  unfold pick_file
  by_cases hc : st.cacheDate ≠ some today ∨ st.allLines = none
  · rw [if_pos hc, if_pos hc]
    dsimp only
    (repeat' split) <;> rfl
  · rw [if_neg hc, if_neg hc]
    dsimp only
    (repeat' split) <;> rfl

/-- C5: `build_cache` marks the index as building and invalidates
`G.CACHE_DATE` before the scan starts; the `finally` clears the building
flag whether the scan succeeds or raises; after a failed scan
`G.CACHE_DATE` is still `None`, so the next `pick_file` call triggers a
fresh rebuild instead of serving the partial result. -/
theorem claim_C5 (st : GState) (today : Date) :
    (preBuild st).buildingCache = true ∧
    (preBuild st).cacheDate = none ∧
    (∀ outcome, (buildCacheResult st today outcome).buildingCache = false) ∧
    (∀ out, (buildCacheResult st today (Except.error out)).cacheDate = none) ∧
    (∀ out sess env walk rand,
      (pick_file (buildCacheResult st today (Except.error out))
          sess today env walk rand).rebuilds = 1) := by
  refine ⟨rfl, rfl, ?_, ?_, ?_⟩
  · intro outcome; cases outcome <;> rfl
  · intro out; rfl
  · intro out sess env walk rand
    rw [pick_file_rebuilds]
    exact if_pos (Or.inl (by simp [buildCacheResult, preBuild]))

/-! ### Index-partition lemmas (claim C3) -/

theorem scanRootFiles_sameL (today : Date) (env : DateEnv) (root : String)
    (files : List String) :
    (scanRootFiles today env root files).sameL =
      ((files.filter supportedExt).map (joinPath root)).filter
        (fun p => sameDayAs today (get_photo_date env p)) := by
  induction files with
  | nil => rfl
  | cons fn fns ih =>
    by_cases hs : supportedExt fn = true
    · by_cases hd : sameDayAs today (get_photo_date env (joinPath root fn)) = true
      · simp [scanRootFiles, hs, hd, ih, List.filter_cons]
      · simp [scanRootFiles, hs, hd, ih, List.filter_cons]
    · simp [scanRootFiles, hs, ih, List.filter_cons]

theorem scanRootFiles_allL (today : Date) (env : DateEnv) (root : String)
    (files : List String) :
    (scanRootFiles today env root files).allL =
      ((files.filter supportedExt).map (joinPath root)).filter
        (fun p => ! sameDayAs today (get_photo_date env p)) := by
  induction files with
  | nil => rfl
  | cons fn fns ih =>
    by_cases hs : supportedExt fn = true
    · by_cases hd : sameDayAs today (get_photo_date env (joinPath root fn)) = true
      · simp [scanRootFiles, hs, hd, ih, List.filter_cons]
      · simp [scanRootFiles, hs, hd, ih, List.filter_cons]
    · simp [scanRootFiles, hs, ih, List.filter_cons]

theorem scanFiles_sameL (today : Date) (env : DateEnv)
    (walk : List (String × List String)) :
    (scanFiles today env walk).sameL =
      (eligiblePaths walk).filter
        (fun p => sameDayAs today (get_photo_date env p)) := by
  induction walk with
  | nil => rfl
  | cons rf rest ih =>
    obtain ⟨root, files⟩ := rf
    by_cases hi : ignoredRoot root = true
    · simp [scanFiles, eligiblePaths, hi, ih]
    · simp [scanFiles, eligiblePaths, hi, ih, scanRootFiles_sameL,
        List.filter_append]

theorem scanFiles_allL (today : Date) (env : DateEnv)
    (walk : List (String × List String)) :
    (scanFiles today env walk).allL =
      (eligiblePaths walk).filter
        (fun p => ! sameDayAs today (get_photo_date env p)) := by
  induction walk with
  | nil => rfl
  | cons rf rest ih =>
    obtain ⟨root, files⟩ := rf
    by_cases hi : ignoredRoot root = true
    · simp [scanFiles, eligiblePaths, hi, ih]
    · simp [scanFiles, eligiblePaths, hi, ih, scanRootFiles_allL,
        List.filter_append]

/-- C3: after a successful build, every enumerated photo with a supported
extension (under a non-ignored root) appears in exactly one of
`cache_same_day.txt` and `cache_all.txt` — in the same-day file exactly
when its resolved date matches today's month and day, in the all file
otherwise — and a photo whose date cannot be resolved (`None`) always
lands in `cache_all.txt`. -/
theorem claim_C3 (st : GState) (today : Date) (env : DateEnv)
    (walk : List (String × List String)) (p : String)
    (hp : p ∈ eligiblePaths walk) :
    (buildCacheOk st today env walk).sameLines =
      some (scanFiles today env walk).sameL ∧
    (buildCacheOk st today env walk).allLines =
      some (scanFiles today env walk).allL ∧
    (sameDayAs today (get_photo_date env p) = true →
      p ∈ (scanFiles today env walk).sameL ∧
        p ∉ (scanFiles today env walk).allL) ∧
    (sameDayAs today (get_photo_date env p) = false →
      p ∈ (scanFiles today env walk).allL ∧
        p ∉ (scanFiles today env walk).sameL) ∧
    (get_photo_date env p = none → p ∈ (scanFiles today env walk).allL) := by
  refine ⟨rfl, rfl, ?_, ?_, ?_⟩
  · intro hd
    constructor
    · rw [scanFiles_sameL]
      exact List.mem_filter.mpr ⟨hp, hd⟩
    · rw [scanFiles_allL]
      intro hmem
      have := (List.mem_filter.mp hmem).2
      rw [hd] at this
      simp at this
  · intro hd
    constructor
    · rw [scanFiles_allL]
      exact List.mem_filter.mpr ⟨hp, by rw [hd]; rfl⟩
    · rw [scanFiles_sameL]
      intro hmem
      have := (List.mem_filter.mp hmem).2
      rw [hd] at this
      simp at this
  · intro hnone
    rw [scanFiles_allL]
    refine List.mem_filter.mpr ⟨hp, ?_⟩
    rw [hnone]
    rfl

/-- C3 witness: a build over one root holding one supported photo with an
unresolvable date; the photo lands in `cache_all.txt`. -/
theorem claim_C3_witness :
    "base/x.png" ∈ eligiblePaths [("base", ["x.png"])] ∧
    get_photo_date ⟨fun _ => none, fun _ => none⟩ "base/x.png" = none ∧
    "base/x.png" ∈
      (scanFiles ⟨2026, 2, 2⟩ ⟨fun _ => none, fun _ => none⟩
        [("base", ["x.png"])]).allL :=
  ⟨by decide, by decide,
   (claim_C3 ⟨none, false, [], 0, 5, 2, [], none, none, 0, fun _ => false⟩
      ⟨2026, 2, 2⟩ ⟨fun _ => none, fun _ => none⟩ [("base", ["x.png"])]
      "base/x.png" (by decide)).2.2.2.2 (by decide)⟩

/-! ### Date-priority (claim C7) -/

/-- C7: a valid `YYYYMMDD` capture in the base name wins over the EXIF and
mtime sources regardless of their values; when the captured digits do not
form a valid calendar date that tier fails and resolution falls through
to the `YYYY-MM-DD` tier and then to EXIF and mtime. -/
theorem claim_C7 (env : DateEnv) (path : String) (y m d : Nat)
    (h : findMatch8 (basenameStr path).data = some (y, m, d)) :
    (validDate y m d = true → get_photo_date env path = some ⟨y, m, d⟩) ∧
    (validDate y m d = false →
      get_photo_date env path =
        match hyphenTier (basenameStr path) with
        | some dd => some dd
        | none => metadataChain env path) := by
  constructor
  · intro hv
    simp only [get_photo_date, parse_date_from_filename, h, hv, if_true]
  · intro hv
    simp only [get_photo_date, parse_date_from_filename, h, hv,
      Bool.false_eq_true, if_false]

/-- C7 witness: `20240115_pic.jpg` resolves to 2024-01-15 despite EXIF and
mtime oracles reporting other dates; `00001301_x.jpg`'s invalid first
capture (year 0000, month 13) makes the tier fail and resolution falls
through to the metadata chain. -/
theorem claim_C7_witness :
    (findMatch8 (basenameStr "photos/20240115_pic.jpg").data =
        some (2024, 1, 15) ∧
      validDate 2024 1 15 = true ∧
      get_photo_date ⟨fun _ => some ⟨1999, 12, 31⟩, fun _ => some ⟨2000, 1, 1⟩⟩
        "photos/20240115_pic.jpg" = some ⟨2024, 1, 15⟩) ∧
    (findMatch8 (basenameStr "photos/00001301_x.jpg").data =
        some (0, 13, 1) ∧
      validDate 0 13 1 = false ∧
      get_photo_date ⟨fun _ => some ⟨1999, 12, 31⟩, fun _ => some ⟨2000, 1, 1⟩⟩
        "photos/00001301_x.jpg" = some ⟨1999, 12, 31⟩) :=
  ⟨⟨by decide, by decide,
    (claim_C7 ⟨fun _ => some ⟨1999, 12, 31⟩, fun _ => some ⟨2000, 1, 1⟩⟩
      "photos/20240115_pic.jpg" 2024 1 15 (by decide)).1 (by decide)⟩,
   ⟨by decide, by decide, by
    rw [(claim_C7 ⟨fun _ => some ⟨1999, 12, 31⟩, fun _ => some ⟨2000, 1, 1⟩⟩
      "photos/00001301_x.jpg" 0 13 1 (by decide)).2 (by decide)]
    decide⟩⟩

/-! ### Selection-engine lemmas (claims C6, C8, C1) -/

/-- `pick_file` when the index is fresh, the cursor is today's, and the
same-day line at the cursor is present and truthy: serve it and advance
the cursor. -/
theorem pick_file_hit (st : GState) (sess : Sess) (today : Date)
    (env : DateEnv) (walk : List (String × List String)) (rand : Nat → Nat)
    (p : String)
    (hc : st.cacheDate = some today) (ha : st.allLines ≠ none)
    (hd : sess.photoDate = some (dateStr today))
    (hl : get_line st.sameLines sess.photoIndex = some p) (hne : p ≠ "") :
    pick_file st sess today env walk rand =
      ⟨some p, { sess with photoIndex := sess.photoIndex + 1 }, st, 0⟩ := by
  have hcond : ¬(st.cacheDate ≠ some today ∨ st.allLines = none) := by
    simp [hc, ha]
  have hdcond : ¬(sess.photoDate ≠ some (dateStr today)) := by simp [hd]
  have ht : truthy (some p) = true := by simp [truthy, hne]
  unfold pick_file
  rw [if_neg hcond, if_neg hdcond]
  dsimp only
  rw [hl, if_pos ht]

/-- `pick_file` when the index is fresh, the cursor is today's, and the
same-day line at the cursor is missing or empty: fall back to the random
line of `cache_all.txt` (or `None` when it is empty). -/
theorem pick_file_fb (st : GState) (sess : Sess) (today : Date)
    (env : DateEnv) (walk : List (String × List String)) (rand : Nat → Nat)
    (hc : st.cacheDate = some today) (ha : st.allLines ≠ none)
    (hd : sess.photoDate = some (dateStr today))
    (hl : truthy (get_line st.sameLines sess.photoIndex) = false) :
    pick_file st sess today env walk rand =
      if 0 < count_lines st.allLines then
        ⟨get_line st.allLines (rand (count_lines st.allLines)), sess, st, 0⟩
      else ⟨none, sess, st, 0⟩ := by
  have hcond : ¬(st.cacheDate ≠ some today ∨ st.allLines = none) := by
    simp [hc, ha]
  have hdcond : ¬(sess.photoDate ≠ some (dateStr today)) := by simp [hd]
  unfold pick_file
  rw [if_neg hcond, if_neg hdcond]
  dsimp only
  rw [if_neg (by rw [hl]; exact Bool.false_ne_true)]

/-- Day rollover of the cursor: when the session's `photo_date` is not
today, `pick_file` behaves exactly as on the cursor reset to position 0
(with `photo_date` set to today) — the reset happens before any
selection. -/
theorem pick_file_reset (st : GState) (sess : Sess) (today : Date)
    (env : DateEnv) (walk : List (String × List String)) (rand : Nat → Nat)
    (hd : sess.photoDate ≠ some (dateStr today)) :
    pick_file st sess today env walk rand =
      pick_file st ⟨some (dateStr today), 0, sess.photoServed⟩ today env walk
        rand := by
  unfold pick_file
  dsimp only
  rw [if_pos hd, if_neg (show ¬(some (dateStr today) ≠ some (dateStr today)) by simp)]

/-- The state component returned by `pick_file`: rebuilt when stale, else
unchanged. -/
theorem pick_file_st (st : GState) (sess : Sess) (today : Date)
    (env : DateEnv) (walk : List (String × List String)) (rand : Nat → Nat) :
    (pick_file st sess today env walk rand).st =
      if st.cacheDate ≠ some today ∨ st.allLines = none
      then buildCacheOk st today env walk else st := by
  unfold pick_file
  by_cases hc : st.cacheDate ≠ some today ∨ st.allLines = none
  · rw [if_pos hc, if_pos hc]
    dsimp only
    (repeat' split) <;> rfl
  · rw [if_neg hc, if_neg hc]
    dsimp only
    (repeat' split) <;> rfl

/-- C8: an index built for day `D`, queried by `pick_file` when today is
`D + 1` (any different day), triggers exactly one rebuild during that
call, after which the index carries today's date and `cache_all.txt`
exists, so the immediately following call triggers none; and a session
cursor whose `photo_date` differs from today is reset to position 0
before any selection is made. -/
theorem claim_C8 (st : GState) (sess : Sess) (today D : Date) (env : DateEnv)
    (walk : List (String × List String)) (rand rnd2 : Nat → Nat)
    (hc : st.cacheDate = some D) (hne : D ≠ today) :
    (pick_file st sess today env walk rand).rebuilds = 1 ∧
    (pick_file st sess today env walk rand).st.cacheDate = some today ∧
    (pick_file st sess today env walk rand).st.allLines ≠ none ∧
    (pick_file (pick_file st sess today env walk rand).st
        (pick_file st sess today env walk rand).sess today env walk
        rnd2).rebuilds = 0 ∧
    (∀ sessX : Sess, sessX.photoDate ≠ some (dateStr today) →
      pick_file st sessX today env walk rand =
        pick_file st ⟨some (dateStr today), 0, sessX.photoServed⟩ today env
          walk rand) := by
  have hcond : st.cacheDate ≠ some today ∨ st.allLines = none := by
    left
    rw [hc]
    intro hEq
    exact hne (Option.some.inj hEq)
  have hsteq : (pick_file st sess today env walk rand).st =
      buildCacheOk st today env walk := by
    rw [pick_file_st, if_pos hcond]
  refine ⟨?_, ?_, ?_, ?_, ?_⟩
  · rw [pick_file_rebuilds, if_pos hcond]
  · rw [hsteq]; rfl
  · rw [hsteq]
    simp [buildCacheOk, buildCacheResult, preBuild]
  · rw [pick_file_rebuilds, if_neg]
    rw [hsteq]
    simp [buildCacheOk, buildCacheResult, preBuild]
  · intro sessX hdX
    exact pick_file_reset st sessX today env walk rand hdX

/-- C8 witness: an index built for 2024-01-01 queried on 2024-01-02 —
exactly one rebuild on the first call, none on the next. -/
theorem claim_C8_witness :
    (⟨2024, 1, 1⟩ : Date) ≠ ⟨2024, 1, 2⟩ ∧
    (pick_file
        ⟨some ⟨2024, 1, 1⟩, false, [], 0, 5, 2, [], some [], some [], 0,
          fun _ => false⟩
        ⟨none, 0, 0⟩ ⟨2024, 1, 2⟩ ⟨fun _ => none, fun _ => none⟩ []
        (fun _ => 0)).rebuilds = 1 ∧
    (pick_file
        (pick_file
          ⟨some ⟨2024, 1, 1⟩, false, [], 0, 5, 2, [], some [], some [], 0,
            fun _ => false⟩
          ⟨none, 0, 0⟩ ⟨2024, 1, 2⟩ ⟨fun _ => none, fun _ => none⟩ []
          (fun _ => 0)).st
        (pick_file
          ⟨some ⟨2024, 1, 1⟩, false, [], 0, 5, 2, [], some [], some [], 0,
            fun _ => false⟩
          ⟨none, 0, 0⟩ ⟨2024, 1, 2⟩ ⟨fun _ => none, fun _ => none⟩ []
          (fun _ => 0)).sess
        ⟨2024, 1, 2⟩ ⟨fun _ => none, fun _ => none⟩ [] (fun _ => 0)).rebuilds
      = 0 :=
  ⟨by decide,
   (claim_C8
      ⟨some ⟨2024, 1, 1⟩, false, [], 0, 5, 2, [], some [], some [], 0,
        fun _ => false⟩
      ⟨none, 0, 0⟩ ⟨2024, 1, 2⟩ ⟨2024, 1, 1⟩ ⟨fun _ => none, fun _ => none⟩ []
      (fun _ => 0) (fun _ => 0) rfl (by decide)).1,
   (claim_C8
      ⟨some ⟨2024, 1, 1⟩, false, [], 0, 5, 2, [], some [], some [], 0,
        fun _ => false⟩
      ⟨none, 0, 0⟩ ⟨2024, 1, 2⟩ ⟨2024, 1, 1⟩ ⟨fun _ => none, fun _ => none⟩ []
      (fun _ => 0) (fun _ => 0) rfl (by decide)).2.2.2.1⟩

/-- C6: with a fresh cursor and 3 same-day photos, four consecutive
`pick_file` calls serve same-day photo 1, 2, 3 (incrementing the cursor
each time) and then a line of `cache_all.txt` at the drawn random index
(when that sequence is nonempty; the index drawn by `randrange(total)` is
modelled by the oracle `rand4 total`); and when both sequences are empty,
`pick_file` returns `None`. -/
theorem claim_C6 (st : GState) (sess : Sess) (today : Date) (env : DateEnv)
    (walk : List (String × List String)) (rand1 rand2 rand3 rand4 : Nat → Nat)
    (p1 p2 p3 : String) (alls : List String)
    (hc : st.cacheDate = some today)
    (hsame : st.sameLines = some [p1, p2, p3])
    (hall : st.allLines = some alls)
    (hd : sess.photoDate = some (dateStr today))
    (hi : sess.photoIndex = 0)
    (hp : ∀ p ∈ [p1, p2, p3], pyStrip p = p ∧ p ≠ "") :
    let r1 := pick_file st sess today env walk rand1
    let r2 := pick_file r1.st r1.sess today env walk rand2
    let r3 := pick_file r2.st r2.sess today env walk rand3
    let r4 := pick_file r3.st r3.sess today env walk rand4
    (r1.path = some p1 ∧ r1.sess.photoIndex = 1) ∧
    (r2.path = some p2 ∧ r2.sess.photoIndex = 2) ∧
    (r3.path = some p3 ∧ r3.sess.photoIndex = 3) ∧
    (0 < alls.length → r4.path = get_line (some alls) (rand4 alls.length)) ∧
    (alls = [] → r4.path = none) ∧
    (∀ (st2 : GState) (sess2 : Sess) (rnd : Nat → Nat),
      st2.cacheDate = some today → st2.sameLines = some [] →
      st2.allLines = some [] →
      (pick_file st2 sess2 today env walk rnd).path = none) := by
  have ha : st.allLines ≠ none := by rw [hall]; simp
  have hq1 := hp p1 (by simp)
  have hq2 := hp p2 (by simp)
  have hq3 := hp p3 (by simp)
  have hl1 : get_line st.sameLines sess.photoIndex = some p1 := by
    rw [hsame, hi]
    simp [get_line, hq1.1]
  have h1 : pick_file st sess today env walk rand1 =
      ⟨some p1, { sess with photoIndex := sess.photoIndex + 1 }, st, 0⟩ :=
    pick_file_hit st sess today env walk rand1 p1 hc ha hd hl1 hq1.2
  have hl2 : get_line st.sameLines
      ({ sess with photoIndex := sess.photoIndex + 1 } : Sess).photoIndex =
        some p2 := by
    rw [hsame]
    simp [get_line, hi, hq2.1]
  have h2 : pick_file st { sess with photoIndex := sess.photoIndex + 1 }
      today env walk rand2 =
      ⟨some p2, { sess with photoIndex := sess.photoIndex + 1 + 1 }, st, 0⟩ :=
    pick_file_hit st _ today env walk rand2 p2 hc ha hd hl2 hq2.2
  have hl3 : get_line st.sameLines
      ({ sess with photoIndex := sess.photoIndex + 1 + 1 } : Sess).photoIndex =
        some p3 := by
    rw [hsame]
    simp [get_line, hi, hq3.1]
  have h3 : pick_file st { sess with photoIndex := sess.photoIndex + 1 + 1 }
      today env walk rand3 =
      ⟨some p3, { sess with photoIndex := sess.photoIndex + 1 + 1 + 1 }, st, 0⟩ :=
    pick_file_hit st _ today env walk rand3 p3 hc ha hd hl3 hq3.2
  have hl4 : truthy (get_line st.sameLines
      ({ sess with photoIndex := sess.photoIndex + 1 + 1 + 1 } : Sess).photoIndex)
        = false := by
    rw [hsame]
    simp [get_line, hi, truthy]
  have h4 : pick_file st { sess with photoIndex := sess.photoIndex + 1 + 1 + 1 }
      today env walk rand4 =
      if 0 < count_lines st.allLines then
        ⟨get_line st.allLines (rand4 (count_lines st.allLines)),
          { sess with photoIndex := sess.photoIndex + 1 + 1 + 1 }, st, 0⟩
      else ⟨none, { sess with photoIndex := sess.photoIndex + 1 + 1 + 1 }, st, 0⟩ :=
    pick_file_fb st _ today env walk rand4 hc ha hd hl4
  refine ⟨⟨?_, ?_⟩, ⟨?_, ?_⟩, ⟨?_, ?_⟩, ?_, ?_, ?_⟩
  · rw [h1]
  · rw [h1, hi]
  · rw [h1, h2]
  · rw [h1, h2, hi]
  · rw [h1, h2, h3]
  · rw [h1, h2, h3, hi]
  · intro hlen
    rw [h1, h2, h3, h4, hall]
    rw [if_pos (by simpa [count_lines] using hlen)]
    rfl
  · intro hnil
    rw [h1, h2, h3, h4, hall, hnil]
    rw [if_neg (by simp [count_lines])]
  · intro st2 sess2 rnd hc2 hs2 ha2
    have ha2ne : st2.allLines ≠ none := by rw [ha2]; simp
    by_cases hd2 : sess2.photoDate = some (dateStr today)
    · have hfb : truthy (get_line st2.sameLines sess2.photoIndex) = false := by
        rw [hs2]
        simp [get_line, truthy]
      rw [pick_file_fb st2 sess2 today env walk rnd hc2 ha2ne hd2 hfb,
        if_neg (by rw [ha2]; simp [count_lines])]
    · rw [pick_file_reset st2 sess2 today env walk rnd hd2]
      have hfb : truthy (get_line st2.sameLines
          (⟨some (dateStr today), 0, sess2.photoServed⟩ : Sess).photoIndex)
            = false := by
        rw [hs2]
        simp [get_line, truthy]
      rw [pick_file_fb st2 _ today env walk rnd hc2 ha2ne rfl hfb,
        if_neg (by rw [ha2]; simp [count_lines])]

/-- C6 witness: three same-day photos and a fresh cursor on a concrete
state; the first call serves photo 1. -/
theorem claim_C6_witness :
    (∀ p ∈ ["a", "b", "c"], pyStrip p = p ∧ p ≠ "") ∧
    (pick_file
        ⟨some ⟨2024, 1, 2⟩, false, [], 0, 5, 2, [], some ["z"],
          some ["a", "b", "c"], 0, fun _ => false⟩
        ⟨some (dateStr ⟨2024, 1, 2⟩), 0, 0⟩ ⟨2024, 1, 2⟩
        ⟨fun _ => none, fun _ => none⟩ [] (fun _ => 0)).path = some "a" :=
  ⟨by decide,
   (claim_C6
      ⟨some ⟨2024, 1, 2⟩, false, [], 0, 5, 2, [], some ["z"],
        some ["a", "b", "c"], 0, fun _ => false⟩
      ⟨some (dateStr ⟨2024, 1, 2⟩), 0, 0⟩ ⟨2024, 1, 2⟩
      ⟨fun _ => none, fun _ => none⟩ [] (fun _ => 0) (fun _ => 0) (fun _ => 0)
      (fun _ => 0) "a" "b" "c" ["z"] rfl rfl rfl rfl rfl (by decide)).1.1⟩

/-- `resize_and_compress` never touches the index state: the cache date,
building flag, sequence files and cycle setting are preserved (both on a
hit and through the miss path's write and eviction pass). -/
theorem resize_preserves (st : GState) (path : String) (ov : Overlays)
    (q : Nat) (enc : String → Overlays → Nat → List Nat) :
    (resize_and_compress st path ov q enc).st.cacheDate = st.cacheDate ∧
    (resize_and_compress st path ov q enc).st.buildingCache = st.buildingCache ∧
    (resize_and_compress st path ov q enc).st.sameLines = st.sameLines ∧
    (resize_and_compress st path ov q enc).st.allLines = st.allLines ∧
    (resize_and_compress st path ov q enc).st.sameDayCycle = st.sameDayCycle := by
  simp only [resize_and_compress]
  cases h : lookupEntry (cacheFileName path) st.photoDir <;>
    simp [h, applyPrune]

/-- The `/random` handler on a successful serve: the picked path is
returned and the session bookkeeping runs (increment `photo_served`,
reset both counters once it exceeds `G.SAME_DAY_CYCLE`). -/
theorem random_image_serve (st : GState) (sess : Sess) (today : Date)
    (env : DateEnv) (walk : List (String × List String)) (rand : Nat → Nat)
    (enc : String → Overlays → Nat → List Nat) (p : String)
    (hb : st.buildingCache = false)
    (hp : (pick_file st sess today env walk rand).path = some p)
    (hne : p ≠ "") :
    random_image st sess today env walk rand enc =
      ⟨some p, 200,
       (if (resize_and_compress (pick_file st sess today env walk rand).st p
              (routeOverlays env p) 50 enc).st.sameDayCycle <
            (pick_file st sess today env walk rand).sess.photoServed + 1
        then ⟨(pick_file st sess today env walk rand).sess.photoDate, 0, 0⟩
        else { (pick_file st sess today env walk rand).sess with
               photoServed :=
                 (pick_file st sess today env walk rand).sess.photoServed + 1 }),
       (resize_and_compress (pick_file st sess today env walk rand).st p
          (routeOverlays env p) 50 enc).st⟩ := by
  unfold random_image
  rw [if_neg (by rw [hb]; exact Bool.false_ne_true)]
  dsimp only
  rw [hp]
  dsimp only
  rw [if_neg hne]

/-- One `/random` request in fallback mode: with the same-day sequence
exhausted for this session, the handler serves the `cache_all.txt` line
at the drawn index and runs the cycle bookkeeping. -/
theorem random_image_fb_step (st : GState) (sess : Sess) (today : Date)
    (env : DateEnv) (walk : List (String × List String)) (rand : Nat → Nat)
    (enc : String → Overlays → Nat → List Nat) (sames alls : List String)
    (hb : st.buildingCache = false) (hc : st.cacheDate = some today)
    (hsame : st.sameLines = some sames) (hall : st.allLines = some alls)
    (hd : sess.photoDate = some (dateStr today))
    (hidx : sames.length ≤ sess.photoIndex)
    (hr : rand alls.length < alls.length)
    (hq : ∀ l ∈ alls, pyStrip l ≠ "") :
    random_image st sess today env walk rand enc =
      ⟨some (pyStrip (alls.get ⟨rand alls.length, hr⟩)), 200,
       (if st.sameDayCycle < sess.photoServed + 1
        then ⟨sess.photoDate, 0, 0⟩
        else { sess with photoServed := sess.photoServed + 1 }),
       (resize_and_compress st (pyStrip (alls.get ⟨rand alls.length, hr⟩))
          (routeOverlays env (pyStrip (alls.get ⟨rand alls.length, hr⟩))) 50
          enc).st⟩ := by
  have ha : st.allLines ≠ none := by rw [hall]; simp
  have hl : truthy (get_line st.sameLines sess.photoIndex) = false := by
    rw [hsame]
    simp [get_line, truthy, List.getElem?_eq_none hidx]
  have hgl : get_line (some alls) (rand (count_lines (some alls))) =
      some (pyStrip (alls.get ⟨rand alls.length, hr⟩)) := by
    simp only [get_line, count_lines, List.get?_eq_getElem?,
      List.getElem?_eq_getElem hr, Option.map_some', List.get_eq_getElem]
  have hpick : pick_file st sess today env walk rand =
      ⟨some (pyStrip (alls.get ⟨rand alls.length, hr⟩)), sess, st, 0⟩ := by
    rw [pick_file_fb st sess today env walk rand hc ha hd hl, hall,
      if_pos (show 0 < count_lines (some alls) from
        Nat.lt_of_le_of_lt (Nat.zero_le _) hr), hgl]
  have hne : pyStrip (alls.get ⟨rand alls.length, hr⟩) ≠ "" :=
    hq _ (alls.get_mem _ _)
  rw [random_image_serve st sess today env walk rand enc _ hb
    (by rw [hpick]) hne]
  rw [hpick, (resize_preserves st _ _ 50 enc).2.2.2.2]

/-- C1: with a cycle threshold of 2 and the same-day sequence exhausted for
a session whose `photo_served` is 0, three consecutive `/random` requests
serve fallback (random `cache_all.txt`) selections while `photo_served`
counts 1, 2, then (exceeding the threshold after the 3rd serve)
`photo_index` and `photo_served` are both reset to 0, and the next
request again serves same-day photo 1.  The caller increments
`photo_served` after every serve and resets both counters exactly when
`photo_served` exceeds `G.SAME_DAY_CYCLE`. -/
theorem claim_C1 (st : GState) (sess : Sess) (today : Date) (env : DateEnv)
    (walk : List (String × List String)) (rand1 rand2 rand3 rand4 : Nat → Nat)
    (enc : String → Overlays → Nat → List Nat) (sames alls : List String)
    (p1 : String)
    (hb : st.buildingCache = false)
    (hc : st.cacheDate = some today)
    (hsame : st.sameLines = some sames)
    (hall : st.allLines = some alls)
    (hcyc : st.sameDayCycle = 2)
    (hd : sess.photoDate = some (dateStr today))
    (hidx : sames.length ≤ sess.photoIndex)
    (hsrv : sess.photoServed = 0)
    (hp1 : sames.get? 0 = some p1) (hp1s : pyStrip p1 = p1) (hp1ne : p1 ≠ "")
    (hq : ∀ l ∈ alls, pyStrip l ≠ "")
    (hr1 : rand1 alls.length < alls.length)
    (hr2 : rand2 alls.length < alls.length)
    (hr3 : rand3 alls.length < alls.length) :
    let o1 := random_image st sess today env walk rand1 enc
    let o2 := random_image o1.st o1.sess today env walk rand2 enc
    let o3 := random_image o2.st o2.sess today env walk rand3 enc
    let o4 := random_image o3.st o3.sess today env walk rand4 enc
    (o1.resp = get_line (some alls) (rand1 alls.length) ∧
      o1.sess.photoServed = 1 ∧ o1.sess.photoIndex = sess.photoIndex) ∧
    (o2.resp = get_line (some alls) (rand2 alls.length) ∧
      o2.sess.photoServed = 2 ∧ o2.sess.photoIndex = sess.photoIndex) ∧
    (o3.resp = get_line (some alls) (rand3 alls.length) ∧
      o3.sess.photoIndex = 0 ∧ o3.sess.photoServed = 0) ∧
    o4.resp = some p1 := by
  have hgl : ∀ (rnd : Nat → Nat) (hr : rnd alls.length < alls.length),
      get_line (some alls) (rnd alls.length) =
        some (pyStrip (alls.get ⟨rnd alls.length, hr⟩)) := by
    intro rnd hr
    simp only [get_line, List.get?_eq_getElem?, List.getElem?_eq_getElem hr,
      Option.map_some', List.get_eq_getElem]
  -- step 1
  have h1 := random_image_fb_step st sess today env walk rand1 enc sames alls
    hb hc hsame hall hd hidx hr1 hq
  rw [hcyc, hsrv, if_neg (by norm_num)] at h1
  set q1 : String := pyStrip (alls.get ⟨rand1 alls.length, hr1⟩) with hq1def
  set st1 : GState :=
    (resize_and_compress st q1 (routeOverlays env q1) 50 enc).st with hst1def
  have p1pres := resize_preserves st q1 (routeOverlays env q1) 50 enc
  have hb1 : st1.buildingCache = false := by rw [hst1def, p1pres.2.1, hb]
  have hc1 : st1.cacheDate = some today := by rw [hst1def, p1pres.1, hc]
  have hsame1 : st1.sameLines = some sames := by rw [hst1def, p1pres.2.2.1, hsame]
  have hall1 : st1.allLines = some alls := by rw [hst1def, p1pres.2.2.2.1, hall]
  have hcyc1 : st1.sameDayCycle = 2 := by rw [hst1def, p1pres.2.2.2.2, hcyc]
  -- step 2
  have h2 := random_image_fb_step st1 { sess with photoServed := 0 + 1 } today
    env walk rand2 enc sames alls hb1 hc1 hsame1 hall1 hd hidx hr2 hq
  rw [hcyc1] at h2
  simp only [Sess.photoServed] at h2
  rw [if_neg (by norm_num)] at h2
  set q2 : String := pyStrip (alls.get ⟨rand2 alls.length, hr2⟩) with hq2def
  set st2 : GState :=
    (resize_and_compress st1 q2 (routeOverlays env q2) 50 enc).st with hst2def
  have p2pres := resize_preserves st1 q2 (routeOverlays env q2) 50 enc
  have hb2 : st2.buildingCache = false := by rw [hst2def, p2pres.2.1, hb1]
  have hc2 : st2.cacheDate = some today := by rw [hst2def, p2pres.1, hc1]
  have hsame2 : st2.sameLines = some sames := by rw [hst2def, p2pres.2.2.1, hsame1]
  have hall2 : st2.allLines = some alls := by rw [hst2def, p2pres.2.2.2.1, hall1]
  have hcyc2 : st2.sameDayCycle = 2 := by rw [hst2def, p2pres.2.2.2.2, hcyc1]
  -- step 3: photo_served reaches 3 > 2, both counters reset
  have h3 := random_image_fb_step st2 { sess with photoServed := 0 + 1 + 1 }
    today env walk rand3 enc sames alls hb2 hc2 hsame2 hall2 hd hidx hr3 hq
  rw [hcyc2] at h3
  simp only [Sess.photoServed] at h3
  rw [if_pos (by norm_num)] at h3
  set q3 : String := pyStrip (alls.get ⟨rand3 alls.length, hr3⟩) with hq3def
  set st3 : GState :=
    (resize_and_compress st2 q3 (routeOverlays env q3) 50 enc).st with hst3def
  have p3pres := resize_preserves st2 q3 (routeOverlays env q3) 50 enc
  have hb3 : st3.buildingCache = false := by rw [hst3def, p3pres.2.1, hb2]
  have hc3 : st3.cacheDate = some today := by rw [hst3def, p3pres.1, hc2]
  have hsame3 : st3.sameLines = some sames := by rw [hst3def, p3pres.2.2.1, hsame2]
  have hall3 : st3.allLines = some alls := by rw [hst3def, p3pres.2.2.2.1, hall2]
  -- step 4: cursor back at 0, same-day photo 1 served
  have hp1e : sames[0]? = some p1 := by
    simpa [List.get?_eq_getElem?] using hp1
  have hl4 : get_line st3.sameLines
      ((⟨sess.photoDate, 0, 0⟩ : Sess)).photoIndex = some p1 := by
    rw [hsame3]
    simp [get_line, hp1e, hp1s]
  have hpick4 : pick_file st3 ⟨sess.photoDate, 0, 0⟩ today env walk rand4 =
      ⟨some p1, ⟨sess.photoDate, 0 + 1, 0⟩, st3, 0⟩ :=
    pick_file_hit st3 ⟨sess.photoDate, 0, 0⟩ today env walk rand4 p1 hc3
      (by rw [hall3]; simp) hd hl4 hp1ne
  have h4 := random_image_serve st3 ⟨sess.photoDate, 0, 0⟩ today env walk rand4
    enc p1 hb3 (by rw [hpick4]) hp1ne
  -- assemble
  dsimp only
  rw [h1]
  dsimp only
  rw [h2]
  dsimp only
  rw [h3]
  dsimp only
  rw [h4]
  refine ⟨⟨?_, rfl, rfl⟩, ⟨?_, rfl, rfl⟩, ⟨?_, rfl, rfl⟩, rfl⟩
  · rw [hgl rand1 hr1]
  · rw [hgl rand2 hr2]
  · rw [hgl rand3 hr3]

/-- C1 witness: one same-day photo already exhausted (cursor at 1), cycle
threshold 2, `photo_served` 0; three fallback serves then photo 1 again. -/
theorem claim_C1_witness :
    let o1 := random_image
      ⟨some ⟨2024, 1, 2⟩, false, [], 0, 5, 2, [], some ["f"], some ["s1"], 0,
        fun _ => false⟩
      ⟨some (dateStr ⟨2024, 1, 2⟩), 1, 0⟩ ⟨2024, 1, 2⟩
      ⟨fun _ => none, fun _ => none⟩ [] (fun _ => 0) (fun _ _ _ => [1])
    let o2 := random_image o1.st o1.sess ⟨2024, 1, 2⟩
      ⟨fun _ => none, fun _ => none⟩ [] (fun _ => 0) (fun _ _ _ => [1])
    let o3 := random_image o2.st o2.sess ⟨2024, 1, 2⟩
      ⟨fun _ => none, fun _ => none⟩ [] (fun _ => 0) (fun _ _ _ => [1])
    let o4 := random_image o3.st o3.sess ⟨2024, 1, 2⟩
      ⟨fun _ => none, fun _ => none⟩ [] (fun _ => 0) (fun _ _ _ => [1])
    (o1.resp = get_line (some ["f"]) ((fun _ => 0) (["f"].length)) ∧
      o1.sess.photoServed = 1 ∧
      o1.sess.photoIndex = (⟨some (dateStr ⟨2024, 1, 2⟩), 1, 0⟩ : Sess).photoIndex) ∧
    (o2.resp = get_line (some ["f"]) ((fun _ => 0) (["f"].length)) ∧
      o2.sess.photoServed = 2 ∧
      o2.sess.photoIndex = (⟨some (dateStr ⟨2024, 1, 2⟩), 1, 0⟩ : Sess).photoIndex) ∧
    (o3.resp = get_line (some ["f"]) ((fun _ => 0) (["f"].length)) ∧
      o3.sess.photoIndex = 0 ∧ o3.sess.photoServed = 0) ∧
    o4.resp = some "s1" :=
  claim_C1
    ⟨some ⟨2024, 1, 2⟩, false, [], 0, 5, 2, [], some ["f"], some ["s1"], 0,
      fun _ => false⟩
    ⟨some (dateStr ⟨2024, 1, 2⟩), 1, 0⟩ ⟨2024, 1, 2⟩
    ⟨fun _ => none, fun _ => none⟩ [] (fun _ => 0) (fun _ => 0) (fun _ => 0)
    (fun _ => 0) (fun _ _ _ => [1]) ["s1"] ["f"] "s1"
    rfl rfl rfl rfl rfl rfl (by decide) rfl rfl (by decide) (by decide)
    (by decide) (by decide) (by decide) (by decide)

/-! ### Transform-cache idempotence (claim C9) -/

/-- `prune_cache`'s update to the state is the identity when the live count
is within the limit. -/
theorem applyPrune_noop (s : GState) (h : s.cacheCount ≤ s.cacheLimit) :
    applyPrune s = s := by
  unfold applyPrune prune_cache
  rw [if_pos h]
  simp

theorem find?_append_of_none {α : Type} (p : α → Bool) (l1 l2 : List α)
    (h : l1.find? p = none) : (l1 ++ l2).find? p = l2.find? p := by
  induction l1 with
  | nil => simp
  | cons a l ih =>
    cases hpa : p a with
    | true =>
      rw [List.find?_cons_of_pos _ hpa] at h
      exact absurd h (by simp)
    | false =>
      rw [List.find?_cons_of_neg _ (by simp [hpa])] at h
      rw [List.cons_append, List.find?_cons_of_neg _ (by simp [hpa])]
      exact ih h

/-- C9 counterexample to the claim as stated: with the cache at its limit
and the only resident entry protected, the first call's own eviction pass
removes the entry it just wrote, so the second call with the same path
misses and performs the full pipeline work again (`didWork = true`),
contradicting "the second call performs no decode, resize, overlay, or
encode work". -/
theorem claim_C9_counterexample :
    (resize_and_compress
        (resize_and_compress
          ⟨none, false, ["aaaa"], 1, 1, 2, [⟨"aaaa.jpg", [9], 0⟩], none, none,
            5, fun _ => false⟩
          "x.jpg" [] 75 (fun _ _ _ => [7])).st
        "x.jpg" [] 75 (fun _ _ _ => [7])).didWork = true := by
  decide

/-- When a fresh entry is appended behind entries none of which carry its
name, any surviving entry found under that name after an arbitrary
filtering (such as an eviction pass, which only deletes entries) is the
fresh entry itself. -/
theorem lookupEntry_filter_append_fresh (pred : CEntry → Bool)
    (dir : List CEntry) (fresh e2 : CEntry)
    (hnone : lookupEntry fresh.name dir = none)
    (h : lookupEntry fresh.name ((dir ++ [fresh]).filter pred) = some e2) :
    e2 = fresh := by
  unfold lookupEntry at hnone h
  rw [List.filter_append] at h
  have hn1 : (dir.filter pred).find? (fun e => e.name == fresh.name) = none := by
    rw [List.find?_eq_none] at hnone ⊢
    intro x hx
    exact hnone x (List.mem_filter.mp hx).1
  rw [find?_append_of_none _ _ _ hn1] at h
  cases hp : pred fresh with
  | true =>
    rw [show List.filter pred [fresh] = [fresh] by simp [hp]] at h
    simp [List.find?] at h
    exact h.symm
  | false =>
    rw [show List.filter pred [fresh] = [] by simp [hp]] at h
    simp at h

/-- C9 amended: calling `resize_and_compress` twice with the same path
returns byte-identical output on both calls, and — provided the first
call's eviction pass did not remove the just-written entry, i.e. the
entry for the path is still present afterwards — the second call performs
no pipeline work and leaves the state unchanged: it only reads the
persisted entry.  The proviso in particular always holds when the
incremented live count stays within the configured limit (last
conjunct). -/
theorem claim_C9_amended (st : GState) (path : String) (ov : Overlays)
    (q : Nat) (enc : String → Overlays → Nat → List Nat) :
    (resize_and_compress (resize_and_compress st path ov q enc).st path ov q
        enc).buf = (resize_and_compress st path ov q enc).buf ∧
    (lookupEntry (cacheFileName path)
        (resize_and_compress st path ov q enc).st.photoDir ≠ none →
      (resize_and_compress (resize_and_compress st path ov q enc).st path ov q
          enc).didWork = false ∧
      (resize_and_compress (resize_and_compress st path ov q enc).st path ov q
          enc).st = (resize_and_compress st path ov q enc).st) ∧
    (st.cacheCount + 1 ≤ st.cacheLimit →
      lookupEntry (cacheFileName path)
        (resize_and_compress st path ov q enc).st.photoDir ≠ none) := by
  cases hlook : lookupEntry (cacheFileName path) st.photoDir with
  | some e =>
    have h1 : resize_and_compress st path ov q enc = ⟨e.bytes, st, false⟩ := by
      simp only [resize_and_compress, hlook]
    rw [h1]
    simp only [resize_and_compress, hlook]
    refine ⟨?_, fun _ => ⟨?_, ?_⟩, fun _ => ?_⟩ <;>
      first | rfl | trivial | simp
  | none =>
    have h1 : resize_and_compress st path ov q enc =
        ⟨enc path ov q,
         applyPrune { st with
            photoDir :=
              st.photoDir ++ [⟨cacheFileName path, enc path ov q, st.now⟩]
            cacheCount := st.cacheCount + 1
            now := st.now + 1 }, true⟩ := by
      simp only [resize_and_compress, hlook]
    have hchar : ∀ e2 : CEntry,
        lookupEntry (cacheFileName path)
          (applyPrune { st with
            photoDir :=
              st.photoDir ++ [⟨cacheFileName path, enc path ov q, st.now⟩]
            cacheCount := st.cacheCount + 1
            now := st.now + 1 }).photoDir = some e2 →
        e2 = ⟨cacheFileName path, enc path ov q, st.now⟩ := by
      intro e2 h2
      exact lookupEntry_filter_append_fresh _ st.photoDir
        ⟨cacheFileName path, enc path ov q, st.now⟩ e2 hlook h2
    have hwithin : st.cacheCount + 1 ≤ st.cacheLimit →
        lookupEntry (cacheFileName path)
          (applyPrune { st with
            photoDir :=
              st.photoDir ++ [⟨cacheFileName path, enc path ov q, st.now⟩]
            cacheCount := st.cacheCount + 1
            now := st.now + 1 }).photoDir ≠ none := by
      intro hle
      rw [applyPrune_noop _ hle]
      show lookupEntry (cacheFileName path)
        (st.photoDir ++ [⟨cacheFileName path, enc path ov q, st.now⟩]) ≠ none
      unfold lookupEntry at hlook ⊢
      rw [find?_append_of_none _ _ _ hlook]
      simp [List.find?]
    rw [h1]
    dsimp only
    cases hlook2 : lookupEntry (cacheFileName path)
        (applyPrune { st with
          photoDir :=
            st.photoDir ++ [⟨cacheFileName path, enc path ov q, st.now⟩]
          cacheCount := st.cacheCount + 1
          now := st.now + 1 }).photoDir with
    | none =>
      simp only [resize_and_compress, hlook2]
      refine ⟨?_, fun hC => absurd rfl hC,
        fun hle => absurd hlook2 (hwithin hle)⟩
      first | rfl | trivial
    | some e2 =>
      have he2 := hchar e2 hlook2
      subst he2
      simp only [resize_and_compress, hlook2]
      refine ⟨?_, fun _ => ⟨?_, ?_⟩, fun _ => ?_⟩ <;>
        first | rfl | trivial | simp

/-- C9 amended witness: with limit 1 and one older unprotected resident
entry, the first call's eviction pass removes the old entry and spares
the just-written one (the count goes over the limit transiently), so the
proviso holds and the second call is a pure cache read. -/
theorem claim_C9_amended_witness :
    (lookupEntry (cacheFileName "x.jpg")
        (resize_and_compress
          ⟨none, false, [], 1, 1, 2, [⟨"old.jpg", [9], 0⟩], none, none, 5,
            fun _ => false⟩
          "x.jpg" [] 75 (fun _ _ _ => [7])).st.photoDir ≠ none) ∧
    (resize_and_compress
        (resize_and_compress
          ⟨none, false, [], 1, 1, 2, [⟨"old.jpg", [9], 0⟩], none, none, 5,
            fun _ => false⟩
          "x.jpg" [] 75 (fun _ _ _ => [7])).st
        "x.jpg" [] 75 (fun _ _ _ => [7])).buf =
      (resize_and_compress
        ⟨none, false, [], 1, 1, 2, [⟨"old.jpg", [9], 0⟩], none, none, 5,
          fun _ => false⟩
        "x.jpg" [] 75 (fun _ _ _ => [7])).buf ∧
    (resize_and_compress
        (resize_and_compress
          ⟨none, false, [], 1, 1, 2, [⟨"old.jpg", [9], 0⟩], none, none, 5,
            fun _ => false⟩
          "x.jpg" [] 75 (fun _ _ _ => [7])).st
        "x.jpg" [] 75 (fun _ _ _ => [7])).didWork = false ∧
    (resize_and_compress
        (resize_and_compress
          ⟨none, false, [], 1, 1, 2, [⟨"old.jpg", [9], 0⟩], none, none, 5,
            fun _ => false⟩
          "x.jpg" [] 75 (fun _ _ _ => [7])).st
        "x.jpg" [] 75 (fun _ _ _ => [7])).st =
      (resize_and_compress
        ⟨none, false, [], 1, 1, 2, [⟨"old.jpg", [9], 0⟩], none, none, 5,
          fun _ => false⟩
        "x.jpg" [] 75 (fun _ _ _ => [7])).st :=
  ⟨by decide,
   (claim_C9_amended
     ⟨none, false, [], 1, 1, 2, [⟨"old.jpg", [9], 0⟩], none, none, 5,
       fun _ => false⟩
     "x.jpg" [] 75 (fun _ _ _ => [7])).1,
   (claim_C9_amended
     ⟨none, false, [], 1, 1, 2, [⟨"old.jpg", [9], 0⟩], none, none, 5,
       fun _ => false⟩
     "x.jpg" [] 75 (fun _ _ _ => [7])).2.1 (by decide)⟩

end Photomatic
